import Mathlib

/-!
# Verification of the ConditionEvaluator engine

A shallow embedding of the `ConditionEvaluator` widget engine
(`src/unnamed/part_000`).  JavaScript values that can appear in the
subscription cache, in a condition's comparison-value list, or as an
operation input are modelled by `JSVal`; JavaScript numbers by `JSNum`
(finite rationals, the two infinities and `NaN` — the claims exercise no
float-rounding behaviour).  The operation registry, the validators,
`executeCondition` and `execute` are translated function by function.

The `mode === 'js'` branch of `execute` delegates wholesale to
`executeJavaScriptCondition`, an external capability that is not part of
this repository's source; it is outside this embedding, and every theorem
about `execute` fixes the mode to `"any"` or `"all"`.
-/

namespace CondEval

/-- A JavaScript number: a finite value (modelled as a rational), one of the
two infinities (`inf true` is `+Infinity`), or `NaN`. -/
inductive JSNum where
  | fin : ℚ → JSNum
  | inf : Bool → JSNum
  | nan : JSNum
deriving DecidableEq, Repr

/-- A JavaScript value as stored in a cache or supplied as a comparison
operand: a number, a string, or `undefined`. -/
inductive JSVal where
  | num : JSNum → JSVal
  | str : String → JSVal
  | undefined : JSVal
deriving DecidableEq, Repr

/-- `input[i]` on a JavaScript array: out-of-bounds indexing yields
`undefined`. -/
def idx (input : List JSVal) (i : Nat) : JSVal :=
  input.getD i .undefined

/-- The whitespace characters stripped by JavaScript's string-to-number
conversion (the common ASCII subset; no claim uses padded strings). -/
def isSpaceChar (c : Char) : Bool :=
  c == ' ' || c == '\t' || c == '\n' || c == '\r' || c == '\x0b' || c == '\x0c'

/-- Longest prefix of decimal digits, together with the rest. -/
def takeDigits : List Char → List Char × List Char
  | [] => ([], [])
  | c :: t =>
    if c.isDigit then
      let (ds, rest) := takeDigits t
      (c :: ds, rest)
    else ([], c :: t)

/-- The natural number denoted by a list of decimal digits. -/
def digitsToNat (ds : List Char) : Nat :=
  ds.foldl (fun n c => 10 * n + (c.toNat - 48)) 0

/-- Split a character list at the first `e`/`E` (exponent marker). -/
def splitAtExp : List Char → List Char × Option (List Char)
  | [] => ([], none)
  | c :: t =>
    if c == 'e' || c == 'E' then ([], some t)
    else
      let (a, b) := splitAtExp t
      (c :: a, b)

/-- Parse an unsigned decimal mantissa: `digits`, `digits.digits`,
`digits.` or `.digits`. -/
def parseMantissa (cs : List Char) : Option ℚ :=
  let (intPart, rest) := takeDigits cs
  match rest with
  | [] => if intPart.isEmpty then none else some (digitsToNat intPart : ℚ)
  | '.' :: rest2 =>
    let (fracPart, rest3) := takeDigits rest2
    if rest3.isEmpty then
      if intPart.isEmpty && fracPart.isEmpty then none
      else some ((digitsToNat intPart : ℚ) + (digitsToNat fracPart : ℚ) / (10 : ℚ) ^ fracPart.length)
    else none
  | _ => none

/-- Parse an optionally signed decimal exponent. -/
def parseExpInt (cs : List Char) : Option Int :=
  let (sg, body) :=
    match cs with
    | '+' :: t => (true, t)
    | '-' :: t => (false, t)
    | t => (true, t)
  let (ds, rest) := takeDigits body
  if ds.isEmpty || !rest.isEmpty then none
  else some (if sg then (digitsToNat ds : Int) else -(digitsToNat ds : Int))

/-- Scale a rational by a signed power of ten. -/
def applyExpTen (q : ℚ) (e : Int) : ℚ :=
  if 0 ≤ e then q * (10 : ℚ) ^ e.toNat else q / (10 : ℚ) ^ (-e).toNat

/-- `Number(s)` for a string `s`: modelled from the ECMAScript
string-to-number conversion for the decimal forms (optional sign,
`Infinity`, decimal digits with optional fraction and exponent; the
whitespace-trimmed empty string is `0`).  The hexadecimal, octal and
binary literal forms are not modelled — no claim exercises them. -/
def jsStringToNumber (s : String) : JSNum :=
  let cs := ((s.data.dropWhile isSpaceChar).reverse.dropWhile isSpaceChar).reverse
  match cs with
  | [] => .fin 0
  | _ =>
    let (sign, body) :=
      match cs with
      | '+' :: t => (true, t)
      | '-' :: t => (false, t)
      | t => (true, t)
    if body == "Infinity".data then .inf sign
    else
      let (mant, expPart) := splitAtExp body
      match parseMantissa mant, expPart with
      | some q, none => .fin (if sign then q else -q)
      | some q, some ec =>
        match parseExpInt ec with
        | some e => .fin (applyExpTen (if sign then q else -q) e)
        | none => .nan
      | none, _ => .nan

/-- `Number(v)` on a cache value: numbers convert to themselves, strings via
the string-to-number conversion, `undefined` to `NaN`. -/
def jsToNumber : JSVal → JSNum
  | .num n => n
  | .str s => jsStringToNumber s
  | .undefined => .nan

/-- JavaScript truthiness of a value (`0`, `NaN`, the empty string and
`undefined` are falsy). -/
def truthy : JSVal → Bool
  | .num (.fin q) => decide (q ≠ 0)
  | .num (.inf _) => true
  | .num .nan => false
  | .str s => decide (s ≠ "")
  | .undefined => false

/-- String rendering of a JavaScript number.  Finite non-integers are
rendered with `Rat`'s printer rather than JavaScript's shortest-decimal
algorithm; no claim evaluates a description of a non-integer. -/
def jsNumToString : JSNum → String
  | .fin q => if q.den = 1 then toString q.num else toString q
  | .inf b => if b then "Infinity" else "-Infinity"
  | .nan => "NaN"

/-- String coercion of a JavaScript value. -/
def jsToString : JSVal → String
  | .num n => jsNumToString n
  | .str s => s
  | .undefined => "undefined"

/-- `===` on JavaScript numbers (`NaN` is equal to nothing). -/
def jsNumEq : JSNum → JSNum → Bool
  | .fin a, .fin b => decide (a = b)
  | .inf a, .inf b => a == b
  | _, _ => false

/-- `<` on JavaScript numbers (`NaN` compares false). -/
def jsNumLt : JSNum → JSNum → Bool
  | .fin a, .fin b => decide (a < b)
  | .fin _, .inf s => s
  | .inf s, .fin _ => !s
  | .inf a, .inf b => !a && b
  | _, _ => false

/-- `<=` on JavaScript numbers (`NaN` compares false). -/
def jsNumLe : JSNum → JSNum → Bool
  | .fin a, .fin b => decide (a ≤ b)
  | .fin _, .inf s => s
  | .inf s, .fin _ => !s
  | .inf a, .inf b => !a || b
  | _, _ => false

/-- The strict-equality operator `===`. -/
def jsStrictEq : JSVal → JSVal → Bool
  | .num a, .num b => jsNumEq a b
  | .str a, .str b => a == b
  | .undefined, .undefined => true
  | _, _ => false

/-- The relational operator `a < b`: two strings compare lexicographically,
otherwise both operands convert to numbers. -/
def jsLt (a b : JSVal) : Bool :=
  match a, b with
  | .str x, .str y => decide (x < y)
  | _, _ => jsNumLt (jsToNumber a) (jsToNumber b)

/-- The relational operator `a > b`. -/
def jsGt (a b : JSVal) : Bool := jsLt b a

/-- The relational operator `a <= b`. -/
def jsLe (a b : JSVal) : Bool :=
  match a, b with
  | .str x, .str y => !(decide (y < x))
  | _, _ => jsNumLe (jsToNumber a) (jsToNumber b)

/-- The relational operator `a >= b`. -/
def jsGe (a b : JSVal) : Bool := jsLe b a

/-- `s.includes(t)`: `need` occurs as a contiguous run of `hay`
(checked on character lists). -/
def charsPre : List Char → List Char → Bool
  | [], _ => true
  | _ :: _, [] => false
  | a :: as, b :: bs => a == b && charsPre as bs

/-- Whether `need` occurs contiguously inside `hay`. -/
def charsIncl (need : List Char) : List Char → Bool
  | [] => charsPre need []
  | c :: t => charsPre need (c :: t) || charsIncl need t

/-- `s.includes(t)` on strings. -/
def strIncludes (s t : String) : Bool := charsIncl t.data s.data

/-- `s.startsWith(t)` on strings. -/
def strStarts (s t : String) : Bool := charsPre t.data s.data

/-- `s.endsWith(t)` on strings. -/
def strEnds (s t : String) : Bool := charsPre t.data.reverse s.data.reverse

/-- The semantic value types an operation may apply to. -/
inductive ValueType where
  | number
  | string
  | enum
deriving DecidableEq, BEq, Repr

/-- One entry of `this.operations`: the predicate, UI text, applicable
types, comparison-operand count and rule-header description renderer.
The predicates return the JavaScript result's truthiness (the source's
truthy-chain expressions such as `input[0] && input[1] && …` are read as
booleans, which is how every caller consumes them). -/
structure Operation where
  operation : List JSVal → Bool
  text : String
  appliesTo : List ValueType
  inputCount : Nat
  getDescription : List JSVal → String

/-- `this.operations.equalTo`. -/
def equalToOp : Operation where
  operation := fun input => jsStrictEq (idx input 0) (idx input 1)
  text := "is equal to"
  appliesTo := [.number]
  inputCount := 1
  getDescription := fun values => " == " ++ jsToString (idx values 0)

/-- `this.operations.notEqualTo`. -/
def notEqualToOp : Operation where
  operation := fun input => !jsStrictEq (idx input 0) (idx input 1)
  text := "is not equal to"
  appliesTo := [.number]
  inputCount := 1
  getDescription := fun values => " != " ++ jsToString (idx values 0)

/-- `this.operations.greaterThan`. -/
def greaterThanOp : Operation where
  operation := fun input => jsGt (idx input 0) (idx input 1)
  text := "is greater than"
  appliesTo := [.number]
  inputCount := 1
  getDescription := fun values => " > " ++ jsToString (idx values 0)

/-- `this.operations.lessThan`. -/
def lessThanOp : Operation where
  operation := fun input => jsLt (idx input 0) (idx input 1)
  text := "is less than"
  appliesTo := [.number]
  inputCount := 1
  getDescription := fun values => " < " ++ jsToString (idx values 0)

/-- `this.operations.greaterThanOrEq`. -/
def greaterThanOrEqOp : Operation where
  operation := fun input => jsGe (idx input 0) (idx input 1)
  text := "is greater than or equal to"
  appliesTo := [.number]
  inputCount := 1
  getDescription := fun values => " >= " ++ jsToString (idx values 0)

/-- `this.operations.lessThanOrEq`. -/
def lessThanOrEqOp : Operation where
  operation := fun input => jsLe (idx input 0) (idx input 1)
  text := "is less than or equal to"
  appliesTo := [.number]
  inputCount := 1
  getDescription := fun values => " <= " ++ jsToString (idx values 0)

/-- `this.operations.between`: `input[0] > input[1] && input[0] < input[2]`. -/
def betweenOp : Operation where
  operation := fun input => jsGt (idx input 0) (idx input 1) && jsLt (idx input 0) (idx input 2)
  text := "is between"
  appliesTo := [.number]
  inputCount := 2
  getDescription := fun values =>
    " between " ++ jsToString (idx values 0) ++ " and " ++ jsToString (idx values 1)

/-- `this.operations.notBetween`: `input[0] < input[1] || input[0] > input[2]`. -/
def notBetweenOp : Operation where
  operation := fun input => jsLt (idx input 0) (idx input 1) || jsGt (idx input 0) (idx input 2)
  text := "is not between"
  appliesTo := [.number]
  inputCount := 2
  getDescription := fun values =>
    " not between " ++ jsToString (idx values 0) ++ " and " ++ jsToString (idx values 1)

/-- `this.operations.textContains`:
`input[0] && input[1] && input[0].includes(input[1])`. -/
def textContainsOp : Operation where
  operation := fun input =>
    truthy (idx input 0) && truthy (idx input 1)
      && strIncludes (jsToString (idx input 0)) (jsToString (idx input 1))
  text := "text contains"
  appliesTo := [.string]
  inputCount := 1
  getDescription := fun values => " contains " ++ jsToString (idx values 0)

/-- `this.operations.textDoesNotContain`:
`input[0] && input[1] && !input[0].includes(input[1])`. -/
def textDoesNotContainOp : Operation where
  operation := fun input =>
    truthy (idx input 0) && truthy (idx input 1)
      && !strIncludes (jsToString (idx input 0)) (jsToString (idx input 1))
  text := "text does not contain"
  appliesTo := [.string]
  inputCount := 1
  getDescription := fun values => " does not contain " ++ jsToString (idx values 0)

/-- `this.operations.textStartsWith`. -/
def textStartsWithOp : Operation where
  operation := fun input => strStarts (jsToString (idx input 0)) (jsToString (idx input 1))
  text := "text starts with"
  appliesTo := [.string]
  inputCount := 1
  getDescription := fun values => " starts with " ++ jsToString (idx values 0)

/-- `this.operations.textEndsWith`. -/
def textEndsWithOp : Operation where
  operation := fun input => strEnds (jsToString (idx input 0)) (jsToString (idx input 1))
  text := "text ends with"
  appliesTo := [.string]
  inputCount := 1
  getDescription := fun values => " ends with " ++ jsToString (idx values 0)

/-- `this.operations.textIsExactly`. -/
def textIsExactlyOp : Operation where
  operation := fun input => jsStrictEq (idx input 0) (idx input 1)
  text := "text is exactly"
  appliesTo := [.string]
  inputCount := 1
  getDescription := fun values => " is exactly " ++ jsToString (idx values 0)

/-- `this.operations.isUndefined`: `typeof input[0] === 'undefined'`. -/
def isUndefinedOp : Operation where
  operation := fun input => decide (idx input 0 = .undefined)
  text := "is undefined"
  appliesTo := [.string, .number, .enum]
  inputCount := 0
  getDescription := fun _ => " is undefined"

/-- `this.operations.isDefined`: `typeof input[0] !== 'undefined'`. -/
def isDefinedOp : Operation where
  operation := fun input => !decide (idx input 0 = .undefined)
  text := "is defined"
  appliesTo := [.string, .number, .enum]
  inputCount := 0
  getDescription := fun _ => " is defined"

/-- `this.operations.enumValueIs`. -/
def enumValueIsOp : Operation where
  operation := fun input => jsStrictEq (idx input 0) (idx input 1)
  text := "is"
  appliesTo := [.enum]
  inputCount := 1
  getDescription := fun values => " == " ++ jsToString (idx values 0)

/-- `this.operations.enumValueIsNot`. -/
def enumValueIsNotOp : Operation where
  operation := fun input => !jsStrictEq (idx input 0) (idx input 1)
  text := "is not"
  appliesTo := [.enum]
  inputCount := 1
  getDescription := fun values => " != " ++ jsToString (idx values 0)

/-- `this.operations` as a lookup from operation key to registry entry
(`undefined`, i.e. `none`, for unknown keys). -/
def operations : String → Option Operation
  | "equalTo" => some equalToOp
  | "notEqualTo" => some notEqualToOp
  | "greaterThan" => some greaterThanOp
  | "lessThan" => some lessThanOp
  | "greaterThanOrEq" => some greaterThanOrEqOp
  | "lessThanOrEq" => some lessThanOrEqOp
  | "between" => some betweenOp
  | "notBetween" => some notBetweenOp
  | "textContains" => some textContainsOp
  | "textDoesNotContain" => some textDoesNotContainOp
  | "textStartsWith" => some textStartsWithOp
  | "textEndsWith" => some textEndsWithOp
  | "textIsExactly" => some textIsExactlyOp
  | "isUndefined" => some isUndefinedOp
  | "isDefined" => some isDefinedOp
  | "enumValueIs" => some enumValueIsOp
  | "enumValueIsNot" => some enumValueIsNotOp
  | _ => none

/-- `validateNumberInput`: folds `valid && typeof value === 'number'`
over the input (`NaN` and the infinities are numbers). -/
def validateNumberInput (input : List JSVal) : Bool :=
  input.foldl
    (fun valid value =>
      valid && match value with | .num _ => true | _ => false)
    true

/-- `validateStringInput`: folds `valid && typeof value === 'string'`
over the input. -/
def validateStringInput (input : List JSVal) : Bool :=
  input.foldl
    (fun valid value =>
      valid && match value with | .str _ => true | _ => false)
    true

/-- `this.inputValidators`: value type → validator (`enum` shares the
number validator). -/
def inputValidators : ValueType → (List JSVal → Bool)
  | .number => validateNumberInput
  | .string => validateStringInput
  | .enum => validateNumberInput

/-- `this.inputTypes`: value type → HTML input field type. -/
def inputTypes : ValueType → String
  | .number => "number"
  | .string => "text"
  | .enum => "select"

/-- A value cache: entity id → (field key → current value), modelled as
association lists (JavaScript object keys are unique; first match wins). -/
abbrev Cache := List (String × List (String × JSVal))

/-- Association-list lookup (JavaScript property access; absent → `none`). -/
def assocGet (k : String) : List (String × α) → Option α
  | [] => none
  | (k', v) :: t => if k' == k then some v else assocGet k t

/-- The guard `cache[object] && typeof cache[object][key] !== 'undefined'`:
resolve the raw field value, treating an absent entity, an absent key, or a
stored `undefined` as unresolved. -/
def resolveRaw (cache : Cache) (object key : String) : Option JSVal :=
  match assocGet object cache with
  | some fields =>
    match assocGet key fields with
    | some v => if v = .undefined then none else some v
    | none => none
  | none => none

/-- `isNaN(Number(value)) ? value : Number(value)` — the numeric coercion
applied to a freshly resolved cache value. -/
def coerceValue (value : JSVal) : JSVal :=
  if jsToNumber value = .nan then value else .num (jsToNumber value)

/-- The engine state: the two injected collaborators plus the test-cache
fields initialised by the constructor.  `compositionObjs` keeps only the
entity ids (the source consumes only `Object.keys` of it). -/
structure Evaluator where
  subscriptionCache : Cache
  compositionObjs : List String
  testCache : Cache
  useTestCache : Bool

/-- The constructor `ConditionEvaluator(subscriptionCache, compositionObjs)`:
the test cache starts empty and disabled. -/
def init (subscriptionCache : Cache) (compositionObjs : List String) : Evaluator where
  subscriptionCache := subscriptionCache
  compositionObjs := compositionObjs
  testCache := []
  useTestCache := false

/-- `this.useTestCache ? this.testCache : this.subscriptionCache`. -/
def activeCache (ev : Evaluator) : Cache :=
  if ev.useTestCache then ev.testCache else ev.subscriptionCache

/-- A caller-supplied condition object. -/
structure Condition where
  object : String
  key : String
  operation : String
  values : List JSVal

/-- `ConditionEvaluator.prototype.executeCondition`.  A thrown
`Malformed condition` error is modelled as `Except.error`; the thrown
branch is taken exactly when the operation key is unknown, the field value
cannot be resolved, or the operation's `appliesTo` is empty (so no
validator is selected).  When the operation exists and the value resolves,
the input is `[coerced value, ...values]` and the result is
`validator(input) && operation(input)` (with the either-validator rule for
operations applying to more than one type). -/
def executeCondition (ev : Evaluator) (object key operation : String)
    (values : List JSVal) : Except String Bool :=
  match operations operation, resolveRaw (activeCache ev) object key with
  | some o, some value =>
    let input := coerceValue value :: values
    match o.appliesTo with
    | [] => .error "Malformed condition"
    | t :: rest =>
      if rest.isEmpty then
        .ok (inputValidators t input && o.operation input)
      else
        .ok ((validateNumberInput input || validateStringInput input) && o.operation input)
  | _, _ => .error "Malformed condition"

/-- One step of the `'any'` fan-out loop:
`conditionValue = conditionValue || executeCondition(objId, …)` inside a
`try`, then `conditionDefined = true`.  The accumulator is
`(conditionValue, conditionDefined)`.  When `conditionValue` is already
`true` the `||` short-circuits, so `executeCondition` is not invoked (and
cannot throw) and the defined flag is still set. -/
def anyStep (ev : Evaluator) (c : Condition) (acc : Bool × Bool) (objId : String) :
    Bool × Bool :=
  if acc.1 then (true, true)
  else
    match executeCondition ev objId c.key c.operation c.values with
    | .ok b => (b, true)
    | .error _ => acc

/-- The `'any'` fan-out: OR-combine per-entity evaluations over the given
entity ids, seeded `(false, false)`; a throwing member leaves the
accumulator untouched. -/
def fanOutAny (ev : Evaluator) (objIds : List String) (c : Condition) : Bool × Bool :=
  objIds.foldl (anyStep ev c) (false, false)

/-- One step of the `'all'` fan-out loop:
`conditionValue = conditionValue && executeCondition(objId, …)`; when
`conditionValue` is already `false` the `&&` short-circuits and the defined
flag is still set. -/
def allStep (ev : Evaluator) (c : Condition) (acc : Bool × Bool) (objId : String) :
    Bool × Bool :=
  if acc.1 then
    match executeCondition ev objId c.key c.operation c.values with
    | .ok b => (b, true)
    | .error _ => acc
  else (false, true)

/-- The `'all'` fan-out: AND-combine per-entity evaluations, seeded
`(true, false)`. -/
def fanOutAll (ev : Evaluator) (objIds : List String) (c : Condition) : Bool × Bool :=
  objIds.foldl (allStep ev c) (true, false)

/-- Evaluate one condition of the list: `none` means the condition never
became defined (its direct evaluation — or every fan-out member — threw
`Malformed condition`), `some b` that it is defined with value `b`. -/
def evalCondition (ev : Evaluator) (c : Condition) : Option Bool :=
  if c.object == "any" then
    let (v, d) := fanOutAny ev ev.compositionObjs c
    if d then some v else none
  else if c.object == "all" then
    let (v, d) := fanOutAll ev ev.compositionObjs c
    if d then some v else none
  else
    match executeCondition ev c.object c.key c.operation c.values with
    | .ok b => some b
    | .error _ => none

/-- The tail of the `forEach` body (source lines 307–315): when the
condition is defined, reset `active` to `true` on the first defined
condition in `'all'` mode, mark `firstRuleEvaluated`, and fold the
condition's value into `active` per the mode.  The accumulator is
`(active, firstRuleEvaluated)`. -/
def executeStep (mode : String) (acc : Bool × Bool) (result : Option Bool) :
    Bool × Bool :=
  match result with
  | none => acc
  | some conditionValue =>
    let a1 := if mode == "all" && !acc.2 then true else acc.1
    let a2 :=
      if mode == "any" then a1 || conditionValue
      else if mode == "all" then a1 && conditionValue
      else a1
    (a2, true)

/-- `ConditionEvaluator.prototype.execute` for a condition list (the
`mode === 'js'` branch delegates to the external
`executeJavaScriptCondition` capability and is outside this embedding). -/
def execute (ev : Evaluator) (conditions : List Condition) (mode : String) : Bool :=
  (conditions.foldl (fun acc condition => executeStep mode acc (evalCondition ev condition))
    (false, false)).1

/-- `getOperationKeys`, in registry insertion order. -/
def getOperationKeys : List String :=
  ["equalTo", "notEqualTo", "greaterThan", "lessThan", "greaterThanOrEq",
   "lessThanOrEq", "between", "notBetween", "textContains", "textDoesNotContain",
   "textStartsWith", "textEndsWith", "textIsExactly", "isUndefined", "isDefined",
   "enumValueIs", "enumValueIsNot"]

/-- `getOperationText`: `return this.operations[key].text` — reading `.text`
of `undefined` throws a `TypeError` for an unknown key (there is no guard
in the source). -/
def getOperationText (key : String) : Except String String :=
  match operations key with
  | some o => .ok o.text
  | none => .error "TypeError"

/-- `operationAppliesTo`: also unguarded, so a `TypeError` on unknown keys. -/
def operationAppliesTo (key : String) (t : ValueType) : Except String Bool :=
  match operations key with
  | some o => .ok (o.appliesTo.contains t)
  | none => .error "TypeError"

/-- `getInputCount`: guarded, `undefined` for unknown keys. -/
def getInputCount (key : String) : Option Nat :=
  match operations key with
  | some o => some o.inputCount
  | none => none

/-- `getOperationDescription`: guarded, `undefined` for unknown keys. -/
def getOperationDescription (key : String) (values : List JSVal) : Option String :=
  match operations key with
  | some o => some (o.getDescription values)
  | none => none

/-- `getInputType`: `undefined` for unknown keys, otherwise the input type
of `appliesTo[0]`. -/
def getInputType (key : String) : Option String :=
  match operations key with
  | some o =>
    match o.appliesTo with
    | t :: _ => some (inputTypes t)
    | [] => none
  | none => none

/-- `getInputTypeById` takes the raw value-type string. -/
def getInputTypeById (dataType : String) : Option String :=
  match dataType with
  | "number" => some "number"
  | "string" => some "text"
  | "enum" => some "select"
  | _ => none

/-- `setTestDataCache`. -/
def setTestDataCache (ev : Evaluator) (testCache : Cache) : Evaluator :=
  { ev with testCache := testCache }

/-- `useTestData`. -/
def useTestData (ev : Evaluator) (flag : Bool) : Evaluator :=
  { ev with useTestCache := flag }

/-- The coercion rule as §4.2 of the spec words it: coerce exactly when the
value parses fully to a *finite* number, otherwise keep the raw value.
Stated from the spec's words, to be compared with the source's
`coerceValue`. -/
def coerceValueSpecFinite (value : JSVal) : JSVal :=
  match jsToNumber value with
  | .fin q => .num (.fin q)
  | _ => value

/-- The amended coercion rule: coerce exactly when `Number(value)` is not
`NaN` — i.e. whenever the value parses as a number, finite or infinite. -/
def coerceValueSpecNaN (value : JSVal) : JSVal :=
  match jsToNumber value with
  | .nan => value
  | n => .num n

/-- Sample evaluator: live cache `a.x = v` for a rational `v`. -/
def evNum (v : ℚ) : Evaluator := init [("a", [("x", .num (.fin v))])] ["a"]

/-- Sample evaluator: empty live cache. -/
def evEmptyCache : Evaluator := init [] ["a"]

/-- Sample evaluator for the fan-out example: `A.x = 5`, `B.x = 10`. -/
def evAB : Evaluator :=
  init [("A", [("x", .num (.fin 5))]), ("B", [("x", .num (.fin 10))])] ["A", "B"]

/-- Sample evaluator: `a.x` stored as the text `"42"`. -/
def evStr42 : Evaluator := init [("a", [("x", .str "42")])] ["a"]

/-- Sample evaluator: `a.x` stored as the text `"Infinity"`. -/
def evStrInf : Evaluator := init [("a", [("x", .str "Infinity")])] ["a"]

/-- Sample evaluator: `a.x` stored as the empty string. -/
def evStrEmpty : Evaluator := init [("a", [("x", .str "")])] ["a"]

/-- Sample evaluator: `a.x` stored as the non-numeric text `"banana"`
(kept as a string by the coercion). -/
def evStrBanana : Evaluator := init [("a", [("x", .str "banana")])] ["a"]

/-- A condition whose operation key is not in the registry. -/
def badCondition : Condition := ⟨"a", "x", "noSuchOperation", []⟩

/-! ## Helper lemmas -/

/-- A value resolved from a cache is never `undefined` (the source's guard
filters out absent and `undefined` entries). -/
theorem resolveRaw_not_undefined {cache : Cache} {o k : String} {v : JSVal}
    (h : resolveRaw cache o k = some v) : ¬ v = JSVal.undefined := by
  unfold resolveRaw at h
  split at h
  · split at h
    · split at h
      · exact Option.noConfusion h
      next hw =>
        cases h
        exact hw
    · exact Option.noConfusion h
  · exact Option.noConfusion h

/-- Numeric coercion never produces `undefined` from a defined value. -/
theorem coerceValue_not_undefined {v : JSVal} (hv : ¬ v = JSVal.undefined) :
    ¬ coerceValue v = JSVal.undefined := by
  unfold coerceValue
  split
  · exact hv
  · simp

/-- `operations "isUndefined"` resolves to the registry entry. -/
theorem operations_isUndefined : operations "isUndefined" = some isUndefinedOp := rfl

/-! ## Claims -/

/-- Claim C1, counterexample: with `a.x = 5` in the cache, the operand
sequence `[5, "banana"]` fails `equalTo`'s number validation, yet
`executeCondition` returns `Except.ok false` — it does not fail with
`Malformed condition` as the claim states. -/
theorem validation_failure_silently_false :
    validateNumberInput [coerceValue (.num (.fin 5)), .str "banana"] = false
    ∧ executeCondition (evNum 5) "a" "x" "equalTo" [.str "banana"] = .ok false :=
  ⟨rfl, rfl⟩

/-- Claim C1, amended: when the operation key is known and the field value
resolves, every operand sequence that fails the operation's type
validation makes `executeCondition` return `false` (`Except.ok false`)
silently — the condition stays defined and contributes `false` to
aggregation — not fail with `Malformed condition`.  First conjunct: for an
operation with a single applicable type, failing the selected validator
alone suffices (e.g. a number operation given any non-all-number operand
sequence).  Second conjunct: for an operation with several applicable
types, validation is the either-validator rule, so failing both the
number and the string validators yields `false`.  `Malformed condition` is
reserved for an unknown operation key, an unresolvable field value, or an
empty `appliesTo`. -/
theorem executeCondition_failed_validation_returns_false :
    (∀ (ev : Evaluator) (object key operation : String) (values : List JSVal)
        (o : Operation), operations operation = some o →
        ∀ v : JSVal, resolveRaw (activeCache ev) object key = some v →
        ∀ t : ValueType, o.appliesTo = [t] →
        inputValidators t (coerceValue v :: values) = false →
        executeCondition ev object key operation values = .ok false)
    ∧ (∀ (ev : Evaluator) (object key operation : String) (values : List JSVal)
        (o : Operation), operations operation = some o →
        ∀ v : JSVal, resolveRaw (activeCache ev) object key = some v →
        ∀ (t : ValueType) (rest : List ValueType), o.appliesTo = t :: rest → rest ≠ [] →
        validateNumberInput (coerceValue v :: values) = false →
        validateStringInput (coerceValue v :: values) = false →
        executeCondition ev object key operation values = .ok false) := by
  constructor
  · intro ev object key operation values o hop v hv t hap hval
    simp only [executeCondition, hop, hv, hap]
    simp [hval]
  · intro ev object key operation values o hop v hv t rest hap hrest hn hs
    simp only [executeCondition, hop, hv, hap]
    cases rest with
    | nil => exact absurd rfl hrest
    | cons r rs => simp [hn, hs]

/-- Witness for the amended claim C1: a number-typed field value with a
string operand, a string field value with a string operand (failing only
`equalTo`'s selected number validator while the string validator would
pass), and a mixed operand sequence to the multi-type `isUndefined` — all
return `Except.ok false` silently. -/
theorem executeCondition_failed_validation_returns_false_witness :
    executeCondition (evNum 5) "a" "x" "equalTo" [.str "banana"] = .ok false
    ∧ executeCondition evStrBanana "a" "x" "equalTo" [.str "banana"] = .ok false
    ∧ executeCondition (evNum 5) "a" "x" "isUndefined" [.str "y"] = .ok false :=
  ⟨executeCondition_failed_validation_returns_false.1 (evNum 5) "a" "x" "equalTo"
      [.str "banana"] equalToOp rfl (.num (.fin 5)) rfl .number rfl rfl,
   executeCondition_failed_validation_returns_false.1 evStrBanana "a" "x" "equalTo"
      [.str "banana"] equalToOp rfl (.str "banana") rfl .number rfl rfl,
   executeCondition_failed_validation_returns_false.2 (evNum 5) "a" "x" "isUndefined"
      [.str "y"] isUndefinedOp rfl (.num (.fin 5)) rfl .string [.number, .enum] rfl
      (by decide) rfl rfl⟩

/-- Claim C2: when the active cache has no entry for the entity or key,
`executeCondition` throws `Malformed condition` for **every** operation —
including `isUndefined` and `isDefined`, contrary to the claim (the
`input` operand array stays `undefined`, so the `op && input && validator`
guard fails before any predicate runs).  Moreover `isUndefined` can never
return `true` through `executeCondition`: a resolved value is never
`undefined`, so the predicate's `typeof input[0] === 'undefined'` test is
unreachable-true and the operation always yields `false` or throws. -/
theorem executeCondition_absent_field_always_malformed :
    executeCondition evEmptyCache "a" "x" "isUndefined" [] = .error "Malformed condition"
    ∧ executeCondition evEmptyCache "a" "x" "isDefined" [] = .error "Malformed condition"
    ∧ ∀ (ev : Evaluator) (object key : String) (values : List JSVal),
        executeCondition ev object key "isUndefined" values = .error "Malformed condition"
        ∨ executeCondition ev object key "isUndefined" values = .ok false := by
  refine ⟨rfl, rfl, ?_⟩
  intro ev object key values
  cases hv : resolveRaw (activeCache ev) object key with
  | none =>
    left
    simp only [executeCondition, operations_isUndefined, hv]
  | some v =>
    right
    have hne := coerceValue_not_undefined (resolveRaw_not_undefined hv)
    simp only [executeCondition, operations_isUndefined, hv, isUndefinedOp, idx]
    simp [hne]

/-- `executeCondition` with a numeric cache value `v` under `between`
reduces to the two strict comparisons. -/
theorem between_eval (v x1 x2 : ℚ) :
    executeCondition (evNum v) "a" "x" "between" [.num (.fin x1), .num (.fin x2)]
      = .ok (decide (x1 < v) && decide (v < x2)) := rfl

/-- `executeCondition` with a numeric cache value `v` under `notBetween`
reduces to the two strict outside comparisons. -/
theorem notBetween_eval (v x1 x2 : ℚ) :
    executeCondition (evNum v) "a" "x" "notBetween" [.num (.fin x1), .num (.fin x2)]
      = .ok (decide (v < x1) || decide (x2 < v)) := rfl

/-- Claim C3, counterexample: with bounds `3` and `7`, `notBetween`
evaluates to `false` — not `true` — when the field value equals either
bound (`v < x1 || v > x2` is strict on both sides). -/
theorem notBetween_at_bound_is_false :
    executeCondition (evNum 3) "a" "x" "notBetween" [.num (.fin 3), .num (.fin 7)] = .ok false
    ∧ executeCondition (evNum 7) "a" "x" "notBetween" [.num (.fin 3), .num (.fin 7)] = .ok false :=
  ⟨rfl, rfl⟩

/-- Claim C3, amended: for numeric bounds `x1 ≤ x2` and a field value equal
to either bound, `between` evaluates to `false` (strictly exclusive at both
ends, as claimed) and `notBetween` **also** evaluates to `false` (it is
`v < x1 || v > x2`, strict on both sides — not `true` as claimed). -/
theorem between_notBetween_at_bounds
    (v x1 x2 : ℚ) (hord : x1 ≤ x2) (hb : v = x1 ∨ v = x2) :
    executeCondition (evNum v) "a" "x" "between" [.num (.fin x1), .num (.fin x2)] = .ok false
    ∧ executeCondition (evNum v) "a" "x" "notBetween" [.num (.fin x1), .num (.fin x2)]
        = .ok false := by
  rw [between_eval, notBetween_eval]
  rcases hb with h | h <;> subst h
  · constructor
    · simp [lt_irrefl]
    · simp [lt_irrefl, not_lt.mpr hord]
  · constructor
    · simp [lt_irrefl]
    · simp [lt_irrefl, not_lt.mpr hord]

/-- Witness for the amended claim C3 at `v = x1 = 3`, `x2 = 7`. -/
theorem between_notBetween_at_bounds_witness :
    executeCondition (evNum 3) "a" "x" "between" [.num (.fin 3), .num (.fin 7)] = .ok false
    ∧ executeCondition (evNum 3) "a" "x" "notBetween" [.num (.fin 3), .num (.fin 7)]
        = .ok false :=
  between_notBetween_at_bounds 3 3 7 (by norm_num) (Or.inl rfl)

/-- The `execute` fold ignores every condition that never becomes
defined. -/
theorem foldl_executeStep_all_none (ev : Evaluator) (mode : String) :
    ∀ (l : List Condition), (∀ c ∈ l, evalCondition ev c = none) →
      ∀ acc : Bool × Bool,
        l.foldl (fun acc condition => executeStep mode acc (evalCondition ev condition)) acc
          = acc := by
  intro l
  induction l with
  | nil => intro _ acc; rfl
  | cons c t ih =>
    intro hl acc
    have hc : evalCondition ev c = none := hl c (by simp)
    have ht : ∀ c' ∈ t, evalCondition ev c' = none := fun c' hc' => hl c' (by simp [hc'])
    simp only [List.foldl_cons, hc]
    exact ih ht acc

/-- Claim C4: an empty condition list yields `false` in both `'any'` and
`'all'` modes, and a rule set in which no condition ever becomes defined
(e.g. every condition malformed) yields `false` as well — `active` is
seeded `false` and only defined conditions may change it. -/
theorem execute_no_defined_condition_false :
    (∀ ev : Evaluator, execute ev [] "any" = false ∧ execute ev [] "all" = false)
    ∧ ∀ (ev : Evaluator) (conditions : List Condition) (mode : String),
        (∀ c ∈ conditions, evalCondition ev c = none) →
        execute ev conditions mode = false := by
  constructor
  · intro ev; exact ⟨rfl, rfl⟩
  · intro ev conditions mode h
    unfold execute
    rw [foldl_executeStep_all_none ev mode conditions h (false, false)]

/-- Witness for claim C4: a two-condition rule set whose conditions all
use an unknown operation key evaluates to `false` in `'all'` mode. -/
theorem execute_no_defined_condition_false_witness :
    execute (evNum 5) [badCondition, badCondition] "all" = false :=
  execute_no_defined_condition_false.2 (evNum 5) [badCondition, badCondition] "all"
    (by decide)

/-- Reachability invariant of the `'any'` fan-out fold: the running value
can only have become `true` through a successful evaluation, so the
defined flag is set whenever the value is `true`. -/
theorem fanOutAny_inv (ev : Evaluator) (c : Condition) :
    ∀ (l : List String) (acc : Bool × Bool), (acc.1 = true → acc.2 = true) →
      ((l.foldl (anyStep ev c) acc).1 = true → (l.foldl (anyStep ev c) acc).2 = true) := by
  intro l
  induction l with
  | nil => intro acc h; exact h
  | cons a t ih =>
    intro acc h
    rw [List.foldl_cons]
    apply ih
    unfold anyStep
    split
    · intro _; rfl
    · cases hE : executeCondition ev a c.key c.operation c.values with
      | ok b => intro _; rfl
      | error e => exact h

/-- Reachability invariant of the `'all'` fan-out fold: the running value
can only have become `false` through a successful evaluation. -/
theorem fanOutAll_inv (ev : Evaluator) (c : Condition) :
    ∀ (l : List String) (acc : Bool × Bool), (acc.1 = false → acc.2 = true) →
      ((l.foldl (allStep ev c) acc).1 = false → (l.foldl (allStep ev c) acc).2 = true) := by
  intro l
  induction l with
  | nil => intro acc h; exact h
  | cons a t ih =>
    intro acc h
    rw [List.foldl_cons]
    apply ih
    unfold allStep
    split
    · cases hE : executeCondition ev a c.key c.operation c.values with
      | ok b => intro _; rfl
      | error e => exact h
    · intro _; rfl

/-- A fan-out member whose evaluation throws leaves the `'any'`
accumulator unchanged (given the reachability invariant). -/
theorem anyStep_absorbs_error (ev : Evaluator) (c : Condition) (objId : String)
    (A : Bool × Bool) (hinv : A.1 = true → A.2 = true) (e : String)
    (h : executeCondition ev objId c.key c.operation c.values = .error e) :
    anyStep ev c A objId = A := by
  obtain ⟨a1, a2⟩ := A
  cases a1
  · simp [anyStep, h]
  · have h2 : a2 = true := hinv rfl
    subst h2
    simp [anyStep]

/-- A fan-out member whose evaluation throws leaves the `'all'`
accumulator unchanged (given the reachability invariant). -/
theorem allStep_absorbs_error (ev : Evaluator) (c : Condition) (objId : String)
    (A : Bool × Bool) (hinv : A.1 = false → A.2 = true) (e : String)
    (h : executeCondition ev objId c.key c.operation c.values = .error e) :
    allStep ev c A objId = A := by
  obtain ⟨a1, a2⟩ := A
  cases a1
  · have h2 : a2 = true := hinv rfl
    subst h2
    simp [allStep]
  · simp [allStep, h]

/-- Claim C5: a `Malformed condition` error is absorbed at the
per-condition and per-fan-out-member boundary and never propagates.
First conjunct: a condition that never becomes defined (its evaluation —
direct or for every fan-out member — threw) is a transparent no-op in
`execute`, and the remaining conditions are still evaluated.  Second and
third conjuncts: inside an `'any'`/`'all'` fan-out, a member whose
`executeCondition` throws is skipped without affecting the combined
value or the defined flag. -/
theorem malformed_condition_is_absorbed :
    (∀ (ev : Evaluator) (pre post : List Condition) (c : Condition) (mode : String),
        evalCondition ev c = none →
        execute ev (pre ++ c :: post) mode = execute ev (pre ++ post) mode)
    ∧ (∀ (ev : Evaluator) (l1 l2 : List String) (objId : String) (c : Condition) (e : String),
        executeCondition ev objId c.key c.operation c.values = .error e →
        fanOutAny ev (l1 ++ objId :: l2) c = fanOutAny ev (l1 ++ l2) c)
    ∧ (∀ (ev : Evaluator) (l1 l2 : List String) (objId : String) (c : Condition) (e : String),
        executeCondition ev objId c.key c.operation c.values = .error e →
        fanOutAll ev (l1 ++ objId :: l2) c = fanOutAll ev (l1 ++ l2) c) := by
  refine ⟨?_, ?_, ?_⟩
  · intro ev pre post c mode hc
    unfold execute
    rw [List.foldl_append, List.foldl_append]
    simp only [List.foldl_cons, hc]
    rfl
  · intro ev l1 l2 objId c e h
    unfold fanOutAny
    rw [List.foldl_append, List.foldl_append, List.foldl_cons]
    rw [anyStep_absorbs_error ev c objId _ (fanOutAny_inv ev c l1 (false, false) (by simp)) e h]
  · intro ev l1 l2 objId c e h
    unfold fanOutAll
    rw [List.foldl_append, List.foldl_append, List.foldl_cons]
    rw [allStep_absorbs_error ev c objId _ (fanOutAll_inv ev c l1 (true, false) (by simp)) e h]

/-- Witness for claim C5: dropping a malformed condition from a rule set
does not change the outcome, at a concrete rule set. -/
theorem malformed_condition_is_absorbed_witness :
    execute (evNum 5) [⟨"a", "x", "lessThan", [.num (.fin 7)]⟩, badCondition] "all"
      = execute (evNum 5) [⟨"a", "x", "lessThan", [.num (.fin 7)]⟩] "all" :=
  malformed_condition_is_absorbed.1 (evNum 5)
    [⟨"a", "x", "lessThan", [.num (.fin 7)]⟩] [] badCondition "all" (by decide)

/-- Claim C6, counterexample: on an unknown operation key,
`getOperationDescription` yields `undefined` as claimed, but
`getOperationText` reads `.text` of `undefined` and throws a `TypeError` —
it is not non-fatal. -/
theorem getOperationText_unknown_key_throws :
    getOperationText "noSuchOperation" = .error "TypeError"
    ∧ getOperationDescription "noSuchOperation" [] = none :=
  ⟨rfl, rfl⟩

/-- Claim C6, amended: for a key absent from the registry,
`getOperationDescription` yields an absent result non-fatally, while
`getOperationText` (which is unguarded in the source) raises a `TypeError`;
during condition execution an unknown key is fatal
(`Malformed condition`), whatever the cache holds. -/
theorem unknown_key_introspection (key : String) (h : operations key = none) :
    (∀ values : List JSVal, getOperationDescription key values = none)
    ∧ getOperationText key = .error "TypeError"
    ∧ ∀ (ev : Evaluator) (object k : String) (values : List JSVal),
        executeCondition ev object k key values = .error "Malformed condition" := by
  refine ⟨?_, ?_, ?_⟩
  · intro values
    simp [getOperationDescription, h]
  · simp [getOperationText, h]
  · intro ev object k values
    cases hres : resolveRaw (activeCache ev) object k <;>
      simp [executeCondition, h, hres]

/-- Witness for the amended claim C6 at the key `"noSuchOperation"`. -/
theorem unknown_key_introspection_witness :
    getOperationText "noSuchOperation" = .error "TypeError"
    ∧ executeCondition (evNum 5) "a" "x" "noSuchOperation" []
        = .error "Malformed condition" :=
  ⟨(unknown_key_introspection "noSuchOperation" rfl).2.1,
   (unknown_key_introspection "noSuchOperation" rfl).2.2 (evNum 5) "a" "x" []⟩

/-- Claim C7: with entity set `{A, B}`, `A.x = 5`, `B.x = 10` and the
condition `{key: x, operation: greaterThan, values: [7]}`, the `'any'`
fan-out is `true` (per-entity results OR-combined from seed `false`: B
qualifies) and the `'all'` fan-out is `false` (AND-combined from seed
`true`: A does not qualify), both as a raw condition evaluation and
through `execute`. -/
theorem fanout_any_all_example :
    evalCondition evAB ⟨"any", "x", "greaterThan", [.num (.fin 7)]⟩ = some true
    ∧ evalCondition evAB ⟨"all", "x", "greaterThan", [.num (.fin 7)]⟩ = some false
    ∧ execute evAB [⟨"any", "x", "greaterThan", [.num (.fin 7)]⟩] "any" = true
    ∧ execute evAB [⟨"all", "x", "greaterThan", [.num (.fin 7)]⟩] "all" = false :=
  ⟨rfl, rfl, rfl, rfl⟩

/-- Claim C8, counterexample: the cache text `"Infinity"` does not parse
to a *finite* number, so by the claim it should be kept as the raw string;
the code coerces it to the number `Infinity` (the test is
`isNaN(Number(value))`, not finiteness).  Observably, `textIsExactly`
against the identical string then fails its string validation and returns
`false` instead of `true`. -/
theorem coercion_infinity_counterexample :
    coerceValueSpecFinite (.str "Infinity") = .str "Infinity"
    ∧ coerceValue (.str "Infinity") = .num (.inf true)
    ∧ executeCondition evStrInf "a" "x" "textIsExactly" [.str "Infinity"] = .ok false :=
  ⟨rfl, rfl, rfl⟩

/-- Claim C8, amended: the resolved cache value is coerced to a number
exactly when `Number(value)` is not `NaN` — i.e. when it parses as a
number, finite or infinite — and is otherwise kept as the raw value; in
particular a field stored as the text `"42"` under `equalTo` with
comparison value `42` evaluates to `true`, and a non-numeric text such as
`"banana"` is kept as-is. -/
theorem coercion_follows_nan_test :
    (∀ v : JSVal, coerceValue v = coerceValueSpecNaN v)
    ∧ coerceValue (.str "banana") = .str "banana"
    ∧ executeCondition evStr42 "a" "x" "equalTo" [.num (.fin 42)] = .ok true := by
  refine ⟨?_, rfl, rfl⟩
  intro v
  cases h : jsToNumber v <;> simp [coerceValue, coerceValueSpecNaN, h]

/-- Claim C9: after `setTestDataCache` and `useTestData(true)`, every
evaluation reads exclusively from the test cache (it behaves exactly as an
evaluator whose live cache *is* the test cache, whatever the live cache
holds); with the flag off it reads exclusively from the live cache without
the test cache needing to be cleared; and concretely, with test cache
`A.x = 1`, entity A's field x resolves to `1` regardless of the live
cache's contents. -/
theorem test_cache_switching (sub tc : Cache) (comp : List String)
    (object key operation : String) (values : List JSVal) :
    executeCondition (useTestData (setTestDataCache (init sub comp) tc) true)
        object key operation values
      = executeCondition (init tc comp) object key operation values
    ∧ executeCondition (useTestData (setTestDataCache (init sub comp) tc) false)
        object key operation values
      = executeCondition (init sub comp) object key operation values
    ∧ executeCondition (useTestData (setTestDataCache (init sub comp)
          [("A", [("x", .num (.fin 1))])]) true) "A" "x" "equalTo" [.num (.fin 1)]
      = .ok true :=
  ⟨rfl, rfl, rfl⟩

/-- Claim C10: coercion of the resolved cache value is decided by whether
`Number(value)` is `NaN`: the empty string converts to the number `0` and
`"Infinity"` to the non-finite value `Infinity`; a field stored as `""`
satisfies `equalTo 0`, while `textIsExactly` on that field no longer sees
a string operand (its string validation fails, yielding `false`). -/
theorem coercion_empty_string_to_zero :
    (∀ v : JSVal, coerceValue v = if jsToNumber v = .nan then v else .num (jsToNumber v))
    ∧ jsStringToNumber "" = .fin 0
    ∧ coerceValue (.str "") = .num (.fin 0)
    ∧ coerceValue (.str "Infinity") = .num (.inf true)
    ∧ executeCondition evStrEmpty "a" "x" "equalTo" [.num (.fin 0)] = .ok true
    ∧ executeCondition evStrEmpty "a" "x" "textIsExactly" [.str ""] = .ok false :=
  ⟨fun _ => rfl, rfl, rfl, rfl, rfl, rfl⟩

end CondEval
